import Mathlib

/-!
Shallow embedding of the asynchronous copy engine in `src/lib.rs` of the
`fastdd` repository.

The engine (`execute_dd`) drives an io_uring submission/completion queue.
We model:
  * machine `u64` arithmetic as `Nat` with explicit `% 2^64` where the Rust
    code can overflow or underflow (release-build wrapping semantics; debug
    builds would panic at the same inputs);
  * the ring as a list of outstanding (submitted, uncompleted) operations;
    the kernel's nondeterministic completion order as an explicit schedule:
    for each outer-loop iteration, a burst of completions, each given as an
    index into the outstanding-operation list together with the `i32`
    result the kernel reports (`cqe.result()`);
  * the drive loop as a fuel-indexed structurally recursive interpreter,
    so that every definition evaluates by kernel reduction;
  * a ghost event trace (submissions, bytes acknowledged by write
    completions, unregister calls) used to state claims about exit paths
    and about which bytes were actually transferred.

Pure setup computations (`total_size`, `num_blocks`,
`registered_num_buffers`, the seek check at line 127, the `arg_parse`
derivation of ring size and buffer count) are embedded as standalone
functions, each translated from the corresponding lines of `src/lib.rs`.
-/

namespace Fastdd

/-- `2^64`, the modulus of Rust `u64` arithmetic. -/
def U64 : Nat := 2 ^ 64

/-- Mirrors `struct RWMetadata { offset: u64, size: u64 }` (lib.rs:68-72). -/
structure RWMetadata where
  offset : Nat
  size : Nat
  deriving DecidableEq, Repr

/-- The per-run constants computed before the main loop of `execute_dd`
(lib.rs:120-154): input/output base offsets in bytes, block size,
total byte count, buffer count and the registration boundary. -/
structure Config where
  ibase : Nat
  obase : Nat
  bs : Nat
  totalSize : Nat
  numBuffers : Nat
  registered : Nat
  deriving DecidableEq, Repr

/-- `num_blocks` (lib.rs:136):
`if total_size % bs == 0 { total_size / bs } else { total_size / bs + 1 }`. -/
def numBlocksOf (total bs : Nat) : Nat :=
  if total % bs = 0 then total / bs else total / bs + 1

/-- The `num_blocks` of a configuration. -/
def Config.numBlocks (c : Config) : Nat :=
  numBlocksOf c.totalSize c.bs

/-- `total_size` (lib.rs:129-134): `file_len.min(c * bs)` when a count is
given, `file_len` otherwise.  `c * bs` is a `u64` multiplication, so it
wraps modulo `2^64`.  `fileLen` here is already `len - ibase`. -/
def totalSizeOf (fileLen : Nat) (count : Option Nat) (bs : Nat) : Nat :=
  match count with
  | some c => min fileLen ((c * bs) % U64)
  | none => fileLen

/-- `registered_num_buffers` (lib.rs:150-154):
`if num_buffers * bs >= max_buf_size { (max_buf_size / bs) - 1 } else { num_buffers }`.
Both the product and the subtraction are `u64` operations, so both wrap. -/
def registeredNumBuffers (numBufs bs ml : Nat) : Nat :=
  if ml ≤ (numBufs * bs) % U64 then (ml / bs + (U64 - 1)) % U64 else numBufs

/-- An operation outstanding on the ring.  `read b off size` is the
read submitted at lib.rs:214-228; `write b bufOff off size` is a write
submitted at lib.rs:259-273 (`bufOff = 0`, pointer `bufs[b].as_ptr()`)
or at lib.rs:289-304 (`bufOff = res`, pointer `bufs[b].as_ptr().add(res)`). -/
inductive Op where
  | read (b off size : Nat)
  | write (b bufOff off size : Nat)
  deriving DecidableEq, Repr

/-- Ghost trace events: operation submissions, bytes acknowledged by a
write completion (`wrote off n` means the kernel reported `n` bytes
written at file offset `off`), and the unregister calls at lib.rs:321-322. -/
inductive Ev where
  | subRead (b off size : Nat)
  | subWrite (b bufOff off size : Nat)
  | wrote (off n : Nat)
  | unregBufs
  | unregFiles
  deriving DecidableEq, Repr

/-- The error exits of `execute_dd`.  `seekRange` is the
"Invalid input seek offset" error (lib.rs:128); `resourceQuery` is
"Failed to get memory lock limit" (lib.rs:143-147); `noMoreData` is
"No more data to read" (lib.rs:205-208); `ioError k` is
`Error::from_raw_os_error(-res)` (lib.rs:243, 278); `assertFailed` is the
`assert!(res < size)` panics (lib.rs:252, 284); `hang` is a model
artifact for a schedule that names a nonexistent outstanding operation. -/
inductive DDErr where
  | seekRange
  | resourceQuery
  | noMoreData
  | ioError (code : Nat)
  | assertFailed
  | hang
  deriving DecidableEq, Repr

/-- The mutable state of the drive loop (lib.rs:124-138 and the loop body):
`free_bufs`, `to_reads`, `cur_bytes`, `cur_blocks`, the `metadata` array
(indexed `2*b` for the read phase and `2*b+1` for the write phase),
the shared progress counter `status_byte_count`, plus the outstanding
operations on the ring and the ghost trace. -/
structure EngSt where
  freeBufs : List Nat
  toReads : List (Nat × Nat)
  curBytes : Nat
  curBlocks : Nat
  metadata : List RWMetadata
  statusBytes : Nat
  pending : List Op
  trace : List Ev
  deriving DecidableEq, Repr

/-- The initial drive-loop state: `free_bufs = (0..num_buffers).collect()`,
empty backlog, zero counters, metadata all `{offset: 0, size: 0}`
(lib.rs:124-126, 135-138). -/
def initSt (numBuffers : Nat) : EngSt :=
  { freeBufs := List.range numBuffers
    toReads := []
    curBytes := 0
    curBlocks := 0
    metadata := List.replicate (2 * numBuffers) ⟨0, 0⟩
    statusBytes := 0
    pending := []
    trace := [] }

/-- The outcome of a run: `ok` is `Ok(total_size)` (lib.rs:329), `err` an
early `return Err(..)`, `outOfFuel` a run whose schedule/fuel ended before
the loop did.  Each carries the final engine state (for the ghost trace). -/
inductive Outcome where
  | ok (bytes : Nat) (st : EngSt)
  | err (e : DDErr) (st : EngSt)
  | outOfFuel (st : EngSt)
  deriving DecidableEq, Repr

/-- Range selection in the fill phase (lib.rs:197-209): pop the backlog if
non-empty, otherwise take the next fresh range
`(ibase + cur_bytes, min bs (total_size - cur_bytes))` and advance
`cur_bytes`, otherwise fail with "No more data to read". -/
def selectRange (cfg : Config) (st : EngSt) : Except DDErr ((Nat × Nat) × EngSt) :=
  match st.toReads with
  | r :: rest => .ok (r, { st with toReads := rest })
  | [] =>
    if st.curBytes < cfg.totalSize then
      let sz := min cfg.bs (cfg.totalSize - st.curBytes)
      .ok ((cfg.ibase + st.curBytes, sz), { st with curBytes := st.curBytes + sz })
    else
      .error .noMoreData

/-- Submission of a read for buffer `b` over `(off, sz)` and the ledger
update `metadata[2*b] = {offset: off, size: sz}` (lib.rs:214-229). -/
def submitRead (st : EngSt) (b off sz : Nat) : EngSt :=
  { st with
    pending := st.pending ++ [.read b off sz]
    trace := st.trace ++ [.subRead b off sz]
    metadata := st.metadata.set (2 * b) ⟨off, sz⟩ }

/-- The fill phase (lib.rs:193-230): while a buffer is free and work
remains (backlog non-empty or `cur_bytes < total_size`), select a range,
pop a buffer and submit a read.  Each iteration consumes one free buffer,
so fuel `st.freeBufs.length` runs the loop to its real exit; the
submission-queue-full flush (lib.rs:194-196) does not change the logical
state and is not modelled. -/
def fillPhase (cfg : Config) : Nat → EngSt → Except (DDErr × EngSt) EngSt
  | 0, st => .ok st
  | n + 1, st =>
    match st.freeBufs with
    | [] => .ok st
    | b :: rest =>
      if st.toReads = [] ∧ ¬ st.curBytes < cfg.totalSize then
        .ok st
      else
        match selectRange cfg st with
        | .error e => .error (e, st)
        | .ok ((off, sz), st1) =>
          fillPhase cfg n (submitRead { st1 with freeBufs := rest } b off sz)

/-- Read-completion handling (lib.rs:240-274): a negative result aborts
with the OS error; a short read pushes the remainder
`(offset + res, size - res)` onto the backlog; a result greater than the
requested size fails the `assert!(res < size)`; in the non-error cases a
write of exactly `res` bytes is submitted from the start of the same
buffer at `obase + read_offset - ibase` and recorded in
`metadata[2*b+1]`. -/
def onReadComplete (cfg : Config) (st : EngSt) (b : Nat) (res : Int) : Except DDErr EngSt :=
  if res < 0 then
    .error (.ioError (-res).toNat)
  else
    let r := res.toNat
    let md := st.metadata.getD (2 * b) ⟨0, 0⟩
    let woff := cfg.obase + md.offset - cfg.ibase
    let submit : EngSt → EngSt := fun s =>
      { s with
        pending := s.pending ++ [.write b 0 woff r]
        trace := s.trace ++ [.subWrite b 0 woff r]
        metadata := s.metadata.set (2 * b + 1) ⟨woff, r⟩ }
    if r = md.size then
      .ok (submit st)
    else if r < md.size then
      .ok (submit { st with toReads := st.toReads ++ [(md.offset + r, md.size - r)] })
    else
      .error .assertFailed

/-- Write-completion handling (lib.rs:275-310): a negative result aborts
with the OS error; the shared progress counter is increased by `res`
unconditionally (lib.rs:282); a result greater than the recorded size
fails the `assert!(res < size)`; a short write reissues a write for the
remainder from buffer position `res` at `offset + res` (the buffer is not
freed); a full write increments `cur_blocks` and returns the buffer to the
free queue. -/
def onWriteComplete (st : EngSt) (b : Nat) (res : Int) : Except DDErr EngSt :=
  if res < 0 then
    .error (.ioError (-res).toNat)
  else
    let r := res.toNat
    let md := st.metadata.getD (2 * b + 1) ⟨0, 0⟩
    let st1 := { st with
      statusBytes := st.statusBytes + r
      trace := st.trace ++ [Ev.wrote md.offset r] }
    if r = md.size then
      .ok { st1 with
        curBlocks := st1.curBlocks + 1
        freeBufs := st1.freeBufs ++ [b] }
    else if r < md.size then
      .ok { st1 with
        pending := st1.pending ++ [Op.write b r (md.offset + r) (md.size - r)]
        trace := st1.trace ++ [Ev.subWrite b r (md.offset + r) (md.size - r)]
        metadata := st1.metadata.set (2 * b + 1) ⟨md.offset + r, md.size - r⟩ }
    else
      .error .assertFailed

/-- Dispatch on `user_data & 1` (lib.rs:237-240): the tag and buffer index
of a completion are recovered from the operation it answers. -/
def handleCQE (cfg : Config) (st : EngSt) (op : Op) (res : Int) : Except DDErr EngSt :=
  match op with
  | .read b _ _ => onReadComplete cfg st b res
  | .write b _ _ _ => onWriteComplete st b res

/-- The drain phase (lib.rs:232-315) under an explicit kernel schedule:
each burst entry `(idx, res)` completes the `idx`-th outstanding operation
with result `res`; the loop breaks when the burst is exhausted (completion
queue observed empty). -/
def drainBurst (cfg : Config) : List (Nat × Int) → EngSt → Except (DDErr × EngSt) EngSt
  | [], st => .ok st
  | (idx, res) :: rest, st =>
    match st.pending[idx]? with
    | none => .error (.hang, st)
    | some op =>
      match handleCQE cfg { st with pending := st.pending.eraseIdx idx } op res with
      | .error e => .error (e, { st with pending := st.pending.eraseIdx idx })
      | .ok st2 => drainBurst cfg rest st2

/-- The success exit (lib.rs:321-329): unregister buffers and files, then
`Ok(total_size)`. -/
def finishRun (cfg : Config) (st : EngSt) : Outcome :=
  .ok cfg.totalSize { st with trace := st.trace ++ [.unregBufs, .unregFiles] }

/-- The main loop `while cur_blocks < num_blocks` (lib.rs:192-319), fuelled
by the kernel schedule: one burst of completions per iteration. -/
def mainLoop (cfg : Config) : Nat → List (List (Nat × Int)) → EngSt → Outcome
  | 0, _, st =>
    if st.curBlocks < cfg.numBlocks then .outOfFuel st else finishRun cfg st
  | fuel + 1, bursts, st =>
    if st.curBlocks < cfg.numBlocks then
      match bursts with
      | [] => .outOfFuel st
      | burst :: rest =>
        match fillPhase cfg st.freeBufs.length st with
        | .error (e, st1) => .err e st1
        | .ok st1 =>
          match drainBurst cfg burst st1 with
          | .error (e, st2) => .err e st2
          | .ok st2 => mainLoop cfg fuel rest st2
    else
      finishRun cfg st

/-- The whole of `execute_dd` (lib.rs:116-330): compute the byte bases
(`u64` multiplications, lib.rs:121-122), check the input seek offset
against the file length (`checked_sub`, lib.rs:127-128), compute
`total_size`, query the memory-lock limit (lib.rs:140-148), compute the
registration boundary, and run the drive loop on the initial state. -/
def execute_dd (fileLen iseek oseek bs : Nat) (count : Option Nat)
    (numBuffers : Nat) (memlock : Option Nat)
    (bursts : List (List (Nat × Int))) (fuel : Nat) : Outcome :=
  let ibase := (iseek * bs) % U64
  let obase := (oseek * bs) % U64
  if ibase ≤ fileLen then
    let total := totalSizeOf (fileLen - ibase) count bs
    match memlock with
    | none => .err .resourceQuery (initSt numBuffers)
    | some ml =>
      let cfg : Config :=
        { ibase := ibase, obase := obase, bs := bs, totalSize := total
          numBuffers := numBuffers
          registered := registeredNumBuffers numBuffers bs ml }
      mainLoop cfg fuel bursts (initSt numBuffers)
  else
    .err .seekRange (initSt numBuffers)

/-- The engine state an outcome carries. -/
def Outcome.finalSt : Outcome → EngSt
  | .ok _ st => st
  | .err _ st => st
  | .outOfFuel st => st

/-- The byte count a successful run returns, if any. -/
def Outcome.retNat : Outcome → Option Nat
  | .ok n _ => some n
  | _ => none

/-- Whether an outcome is the seek-range error. -/
def Outcome.isSeekErr : Outcome → Bool
  | .err .seekRange _ => true
  | _ => false

/-- Total bytes acknowledged by write completions in a trace. -/
def writtenBytes (tr : List Ev) : Nat :=
  (tr.map fun e => match e with | .wrote _ n => n | _ => 0).sum

/-- Whether some write completion in the trace covers output byte `p`. -/
def byteWrittenB (tr : List Ev) (p : Nat) : Bool :=
  tr.any fun e =>
    match e with
    | .wrote off n => decide (off ≤ p ∧ p < off + n)
    | _ => false

/-- The model of `arg_parse`'s derivation of `(ring_size, num_buffers)`
(lib.rs:337-357); `none` stands for the `panic!` on a zero value.  In the
`(None, Some n)` arm the code computes `n as u32 * 2`, a `u32`
truncation followed by a wrapping `u32` multiplication. -/
def deriveRingAndBuffers : Option Nat → Option Nat → Option (Nat × Nat)
  | some r, some n => if r = 0 ∨ n = 0 then none else some (r, n)
  | some r, none => if r = 0 then none else some (r, if r = 1 then 1 else r / 2)
  | none, some n => if n = 0 then none else some ((n % 2 ^ 32 * 2) % 2 ^ 32, n)
  | none, none => some (256, 128)

/-- The validated configuration struct `ArgData` (lib.rs:56-66), file
handles elided. -/
structure ArgDataM where
  block_size : Nat
  count : Option Nat
  iseek : Nat
  oseek : Nat
  ring_size : Nat
  num_buffers : Nat
  progress : Bool
  deriving DecidableEq, Repr

/-- The depth of the ring `execute_dd` creates (lib.rs:117):
`IoUring::new(256)` — the configuration is not consulted. -/
def ringDepth (_ : ArgDataM) : Nat := 256

/-- The error an outcome carries, if any. -/
def Outcome.errOf : Outcome → Option DDErr
  | .err e _ => some e
  | _ => none

/-- Claim C1 (refuted by this run — code bug): on a 4096-byte file copied
with block size 4096 and one buffer, a kernel schedule in which the single
read completes short (1000 of 4096 bytes) and the resulting 1000-byte
write completes in full makes `cur_blocks` reach `num_blocks`, so the
engine terminates and returns `Ok(4096)` even though only 1000 bytes were
ever written: the backlog entry `(1000, 3096)` is dropped and output byte
2000 is never written.  The planned range is not read and written exactly
once, contradicting the claim. -/
theorem c1_short_read_drops_data :
    (execute_dd 4096 0 0 4096 none 1 (some (2 ^ 30)) [[(0, 1000)], [(0, 1000)]] 2).retNat
      = some 4096
    ∧ (execute_dd 4096 0 0 4096 none 1 (some (2 ^ 30)) [[(0, 1000)], [(0, 1000)]] 2).finalSt.curBlocks
      = numBlocksOf 4096 4096
    ∧ writtenBytes (execute_dd 4096 0 0 4096 none 1 (some (2 ^ 30)) [[(0, 1000)], [(0, 1000)]] 2).finalSt.trace
      = 1000
    ∧ byteWrittenB (execute_dd 4096 0 0 4096 none 1 (some (2 ^ 30)) [[(0, 1000)], [(0, 1000)]] 2).finalSt.trace 2000
      = false
    ∧ (execute_dd 4096 0 0 4096 none 1 (some (2 ^ 30)) [[(0, 1000)], [(0, 1000)]] 2).finalSt.toReads
      = [(1000, 3096)] := by
  decide

/-- Claim C2 counterexample: on the failure exit taken when a read
completion reports a negative result (lib.rs:241-243), `execute_dd`
returns without ever unregistering the buffers or the files — the
unregister calls (lib.rs:321-322) are only reached after the main loop. -/
theorem c2_error_path_skips_unregister :
    (execute_dd 4096 0 0 4096 none 1 (some (2 ^ 30)) [[(0, -5)]] 1).errOf
      = some (.ioError 5)
    ∧ Ev.unregBufs ∉ (execute_dd 4096 0 0 4096 none 1 (some (2 ^ 30)) [[(0, -5)]] 1).finalSt.trace
    ∧ Ev.unregFiles ∉ (execute_dd 4096 0 0 4096 none 1 (some (2 ^ 30)) [[(0, -5)]] 1).finalSt.trace := by
  decide

/-- Claim C3 (refuted at this input — code bug): `arg_parse` derives
`ring_size = 8` from `--ring-size 8` (lib.rs:344-349), but `execute_dd`
creates the ring with hardcoded depth 256 (`IoUring::new(256)`,
lib.rs:117), ignoring the configuration's `ring_size` field. -/
theorem c3_ring_depth_hardcoded :
    deriveRingAndBuffers (some 8) none = some (8, 4)
    ∧ ringDepth { block_size := 4096, count := none, iseek := 0, oseek := 0,
                  ring_size := 8, num_buffers := 4, progress := false } = 256
    ∧ ({ block_size := 4096, count := none, iseek := 0, oseek := 0,
         ring_size := 8, num_buffers := 4, progress := false } : ArgDataM).ring_size
      ≠ 256 := by
  decide

/-- Claim C4 counterexample: with block size 4096, one buffer and a
queryable memory-lock limit of 100 bytes, `max_buf_size / bs` is 0 and the
`u64` subtraction `(max_buf_size / bs) - 1` (lib.rs:151) wraps to
`2^64 - 1` (a debug build panics at the same input), so the computed
boundary violates `registered_num_buffers * block_size < memlock_limit`. -/
theorem c4_memlock_underflow :
    registeredNumBuffers 1 4096 100 = U64 - 1
    ∧ ¬ registeredNumBuffers 1 4096 100 * 4096 < 100 := by
  decide

/-- Claim C5 counterexample: with `count = 2^62` and block size 4, the
`u64` product `c * bs` (lib.rs:130) wraps to 0 (a debug build panics at
the same input), so `total_size` is computed as 0 instead of the
mathematical `min(file_length - seek, count * block_size) = 8192`. -/
theorem c5_count_overflow :
    totalSizeOf 8192 (some (2 ^ 62)) 4 = 0
    ∧ min 8192 (2 ^ 62 * 4) = 8192 := by
  decide

/-- If the fill-loop guard holds (backlog non-empty or unconsumed bytes
remain), range selection succeeds. -/
lemma selectRange_ok (cfg : Config) (st : EngSt)
    (h : st.toReads ≠ [] ∨ st.curBytes < cfg.totalSize) :
    ∃ p st1, selectRange cfg st = .ok (p, st1) := by
  unfold selectRange
  cases ht : st.toReads with
  | cons a l => exact ⟨_, _, rfl⟩
  | nil =>
    have hc : st.curBytes < cfg.totalSize := by
      rcases h with h | h
      · exact absurd ht h
      · exact h
    rw [if_pos hc]
    exact ⟨_, _, rfl⟩

/-- The fill phase always terminates successfully: the "No more data to
read" branch is guarded out by the loop condition. -/
lemma fillPhase_ok (cfg : Config) : ∀ (n : Nat) (st : EngSt),
    ∃ st', fillPhase cfg n st = .ok st' := by
  intro n
  induction n with
  | zero => intro st; exact ⟨st, rfl⟩
  | succ n ih =>
    intro st
    rw [fillPhase]
    split
    · exact ⟨st, rfl⟩
    · split
      · exact ⟨st, rfl⟩
      · rename_i b rest hg
        split
        · rename_i e hsel
          obtain ⟨p, st1, h2⟩ := selectRange_ok cfg st (by tauto)
          rw [h2] at hsel
          cases hsel
        · exact ih _

/-- A failing `onReadComplete` fails with the OS error or the assertion,
never with a setup error. -/
lemma onReadComplete_err (cfg : Config) (st : EngSt) (b : Nat) (res : Int) (e : DDErr)
    (h : onReadComplete cfg st b res = .error e) :
    e = .assertFailed ∨ ∃ k, e = .ioError k := by
  simp only [onReadComplete] at h
  split at h
  · injection h with h2
    exact Or.inr ⟨(-res).toNat, h2.symm⟩
  · split at h
    · simp at h
    · split at h
      · simp at h
      · injection h with h2
        exact Or.inl h2.symm

/-- A failing `onWriteComplete` fails with the OS error or the assertion,
never with a setup error. -/
lemma onWriteComplete_err (st : EngSt) (b : Nat) (res : Int) (e : DDErr)
    (h : onWriteComplete st b res = .error e) :
    e = .assertFailed ∨ ∃ k, e = .ioError k := by
  simp only [onWriteComplete] at h
  split at h
  · injection h with h2
    exact Or.inr ⟨(-res).toNat, h2.symm⟩
  · split at h
    · simp at h
    · split at h
      · simp at h
      · injection h with h2
        exact Or.inl h2.symm

/-- A failing completion handler fails with the OS error or the
assertion. -/
lemma handleCQE_err (cfg : Config) (st : EngSt) (op : Op) (res : Int) (e : DDErr)
    (h : handleCQE cfg st op res = .error e) :
    e = .assertFailed ∨ ∃ k, e = .ioError k := by
  cases op with
  | read b off size => exact onReadComplete_err cfg st b res e h
  | write b bufOff off size => exact onWriteComplete_err st b res e h

/-- A failing drain phase fails with a completion-handler error or the
model's schedule artifact, never with a setup error. -/
lemma drainBurst_err (cfg : Config) : ∀ (burst : List (Nat × Int)) (st : EngSt)
    (e : DDErr) (st' : EngSt), drainBurst cfg burst st = .error (e, st') →
    e = .hang ∨ e = .assertFailed ∨ ∃ k, e = .ioError k := by
  intro burst
  induction burst with
  | nil =>
    intro st e st' h
    simp [drainBurst] at h
  | cons p rest ih =>
    intro st e st' h
    obtain ⟨idx, res⟩ := p
    rw [drainBurst] at h
    split at h
    · injection h with h2
      rw [Prod.mk.injEq] at h2
      exact Or.inl h2.1.symm
    · rename_i op hop
      split at h
      · rename_i e1 hh
        injection h with h2
        rw [Prod.mk.injEq] at h2
        rcases handleCQE_err cfg _ op res e1 hh with h3 | h3 <;> rw [← h2.1]
        · exact Or.inr (Or.inl h3)
        · exact Or.inr (Or.inr h3)
      · exact ih _ _ _ h

/-- Every successful exit of the main loop goes through the unregister
calls: the trace of an `ok` outcome contains both unregister events. -/
lemma mainLoop_ok_unregisters (cfg : Config) : ∀ (fuel : Nat)
    (bursts : List (List (Nat × Int))) (st : EngSt) (n : Nat) (st' : EngSt),
    mainLoop cfg fuel bursts st = .ok n st' →
    Ev.unregBufs ∈ st'.trace ∧ Ev.unregFiles ∈ st'.trace := by
  intro fuel
  induction fuel with
  | zero =>
    intro bursts st n st' h
    rw [mainLoop] at h
    split at h
    · exact Outcome.noConfusion h
    · simp only [finishRun] at h
      injection h with h1 h2
      rw [← h2]
      constructor <;> simp
  | succ fuel ih =>
    intro bursts st n st' h
    cases bursts with
    | nil =>
      rw [mainLoop] at h
      split at h
      · exact Outcome.noConfusion h
      · simp only [finishRun] at h
        injection h with h1 h2
        rw [← h2]
        constructor <;> simp
    | cons burst rest =>
      rw [mainLoop] at h
      split at h
      · split at h
        · exact Outcome.noConfusion h
        · split at h
          · exact Outcome.noConfusion h
          · exact ih _ _ _ _ h
      · simp only [finishRun] at h
        injection h with h1 h2
        rw [← h2]
        constructor <;> simp

/-- The main loop never produces the seek-range error: that error is
raised only by the setup check before the loop. -/
lemma mainLoop_not_seekErr (cfg : Config) : ∀ (fuel : Nat)
    (bursts : List (List (Nat × Int))) (st : EngSt),
    (mainLoop cfg fuel bursts st).isSeekErr = false := by
  intro fuel
  induction fuel with
  | zero =>
    intro bursts st
    rw [mainLoop]
    split
    · rfl
    · rfl
  | succ fuel ih =>
    intro bursts st
    cases bursts with
    | nil =>
      rw [mainLoop]
      split
      · rfl
      · rfl
    | cons burst rest =>
      rw [mainLoop]
      split
      · obtain ⟨st1, h1⟩ := fillPhase_ok cfg st.freeBufs.length st
        simp only [h1]
        cases h2 : drainBurst cfg burst st1 with
        | error p =>
          obtain ⟨e, st2⟩ := p
          rcases drainBurst_err cfg burst st1 e st2 h2 with h3 | h3 | ⟨k, h3⟩ <;>
            subst h3 <;> rfl
        | ok st2 => exact ih rest st2
      · rfl

/-- Claim C10 (confirmed): the fill phase always returns successfully —
for every configuration, fuel and state the "No more data to read" branch
(lib.rs:204-209) is unreachable, because the enclosing loop condition
(lib.rs:193) guarantees the backlog is non-empty or `cur_bytes <
total_size`, so one of the two range-selection branches is taken. -/
theorem c10_no_more_data_unreachable (cfg : Config) (n : Nat) (st : EngSt) :
    ∃ st', fillPhase cfg n st = .ok st' :=
  fillPhase_ok cfg n st

/-- Claim C2, amended (the claim as stated is refuted by
`c2_error_path_skips_unregister`, which exhibits one failure exit that
skips the unregister calls): on the success exit of the drive loop the
registered buffers and the registered files are unregistered before the
function returns. -/
theorem c2_success_path_unregisters (cfg : Config) (fuel : Nat)
    (bursts : List (List (Nat × Int))) (st : EngSt) (n : Nat) (st' : EngSt)
    (h : mainLoop cfg fuel bursts st = .ok n st') :
    Ev.unregBufs ∈ st'.trace ∧ Ev.unregFiles ∈ st'.trace :=
  mainLoop_ok_unregisters cfg fuel bursts st n st' h

/-- Witness for `c2_success_path_unregisters` at a concrete successful
run (empty range, so the loop exits immediately). -/
theorem c2_success_path_unregisters_witness :
    mainLoop ⟨0, 0, 4096, 0, 1, 1⟩ 0 [] (initSt 1)
      = .ok 0 { initSt 1 with trace := [Ev.unregBufs, Ev.unregFiles] }
    ∧ Ev.unregBufs ∈ ({ initSt 1 with trace := [Ev.unregBufs, Ev.unregFiles] } : EngSt).trace
    ∧ Ev.unregFiles ∈ ({ initSt 1 with trace := [Ev.unregBufs, Ev.unregFiles] } : EngSt).trace :=
  ⟨by decide,
   c2_success_path_unregisters ⟨0, 0, 4096, 0, 1, 1⟩ 0 [] (initSt 1) 0
     { initSt 1 with trace := [Ev.unregBufs, Ev.unregFiles] } (by decide)⟩

/-- Claim C9 (confirmed): when `total_size = 0` the block count is 0, the
drive loop performs no iterations and submits nothing — whatever the fuel
and the kernel schedule, the run returns `Ok(0)` with the initial state,
its trace holding only the two unregister events. -/
theorem c9_empty_range (cfg : Config) (fuel : Nat)
    (bursts : List (List (Nat × Int))) (h : cfg.totalSize = 0) :
    cfg.numBlocks = 0
    ∧ mainLoop cfg fuel bursts (initSt cfg.numBuffers)
      = .ok 0 { initSt cfg.numBuffers with trace := [Ev.unregBufs, Ev.unregFiles] } := by
  have hnb : cfg.numBlocks = 0 := by
    simp [Config.numBlocks, numBlocksOf, h]
  refine ⟨hnb, ?_⟩
  cases fuel with
  | zero =>
    rw [mainLoop, hnb, finishRun, h]
    simp [initSt]
  | succ fuel =>
    cases bursts with
    | nil =>
      rw [mainLoop, hnb, finishRun, h]
      simp [initSt]
    | cons burst rest =>
      rw [mainLoop, hnb, finishRun, h]
      simp [initSt]

/-- Witness for `c9_empty_range` at a concrete empty-range run. -/
theorem c9_empty_range_witness :
    (⟨0, 0, 4096, 0, 2, 2⟩ : Config).totalSize = 0
    ∧ ((⟨0, 0, 4096, 0, 2, 2⟩ : Config).numBlocks = 0
      ∧ mainLoop ⟨0, 0, 4096, 0, 2, 2⟩ 3 [[(0, 5)]] (initSt 2)
        = .ok 0 { initSt 2 with trace := [Ev.unregBufs, Ev.unregFiles] }) :=
  ⟨by decide, c9_empty_range ⟨0, 0, 4096, 0, 2, 2⟩ 3 [[(0, 5)]] (by decide)⟩

/-- Claim C8 (confirmed): when the input seek offset in bytes strictly
exceeds the input file's length, `execute_dd` fails with the seek-range
error before any operation is submitted (the returned state is the
initial one, with an empty trace, so zero bytes were written); when the
offset equals the file length exactly, no seek-range error is raised on
any exit path. -/
theorem c8_seek_check (fileLen iseek oseek bs : Nat) (count : Option Nat)
    (nb : Nat) (ml : Option Nat) (bursts : List (List (Nat × Int))) (fuel : Nat) :
    (fileLen < (iseek * bs) % U64 →
      execute_dd fileLen iseek oseek bs count nb ml bursts fuel
        = .err .seekRange (initSt nb)
      ∧ (initSt nb).trace = [] ∧ writtenBytes (initSt nb).trace = 0)
    ∧ ((iseek * bs) % U64 = fileLen →
      (execute_dd fileLen iseek oseek bs count nb ml bursts fuel).isSeekErr = false) := by
  constructor
  · intro hgt
    have hnle : ¬ (iseek * bs) % U64 ≤ fileLen := by omega
    refine ⟨?_, rfl, rfl⟩
    simp only [execute_dd]
    rw [if_neg hnle]
  · intro heq
    have hle : (iseek * bs) % U64 ≤ fileLen := le_of_eq heq
    simp only [execute_dd]
    rw [if_pos hle]
    cases ml with
    | none => rfl
    | some m => exact mainLoop_not_seekErr _ _ _ _

/-- Witness for `c8_seek_check`: the first part at a 3-byte file with a
4-byte seek, the second at a 4-byte file with a 4-byte seek. -/
theorem c8_seek_check_witness :
    ((3 : Nat) < (1 * 4) % U64
      ∧ (execute_dd 3 1 0 4 none 1 (some 100) [] 0 = .err .seekRange (initSt 1)
        ∧ (initSt 1).trace = [] ∧ writtenBytes (initSt 1).trace = 0))
    ∧ ((1 * 4) % U64 = (4 : Nat)
      ∧ (execute_dd 4 1 0 4 none 1 (some 100) [] 0).isSeekErr = false) :=
  ⟨⟨by decide, (c8_seek_check 3 1 0 4 none 1 (some 100) [] 0).1 (by decide)⟩,
   ⟨by decide, (c8_seek_check 4 1 0 4 none 1 (some 100) [] 0).2 (by decide)⟩⟩

/-- Claim C4, amended (the claim as stated is refuted by
`c4_memlock_underflow`): for every block size > 0, buffer count > 0 and
queryable memory-lock limit, provided the block size does not exceed the
limit and the requested product `num_buffers * block_size` fits in u64,
the computed boundary satisfies
`registered_num_buffers * block_size < memlock_limit`, and when the
requirement meets or exceeds the budget the computation falls back to
`memlock_limit / block_size - 1` rather than failing. -/
theorem c4_registered_bound (numBufs bs ml : Nat) (hbs : 0 < bs)
    (_hnb : 0 < numBufs) (hml : bs ≤ ml) (hov : numBufs * bs < U64)
    (hml64 : ml < U64) :
    registeredNumBuffers numBufs bs ml * bs < ml
    ∧ (ml ≤ numBufs * bs → registeredNumBuffers numBufs bs ml = ml / bs - 1) := by
  have hU : U64 = 18446744073709551616 := by norm_num [U64]
  have hmod : (numBufs * bs) % U64 = numBufs * bs := Nat.mod_eq_of_lt hov
  have hd1 : 1 ≤ ml / bs := (Nat.one_le_div_iff hbs).mpr hml
  have hdlt : ml / bs < U64 := lt_of_le_of_lt (Nat.div_le_self ml bs) hml64
  have hwrap : (ml / bs + (U64 - 1)) % U64 = ml / bs - 1 := by
    rw [hU] at hdlt ⊢
    omega
  have hbound : (ml / bs - 1) * bs < ml := by
    have h1 : ml / bs * bs ≤ ml := Nat.div_mul_le_self ml bs
    have h2 : (ml / bs - 1) * bs = ml / bs * bs - 1 * bs := Nat.sub_mul _ _ _
    rw [one_mul] at h2
    omega
  unfold registeredNumBuffers
  rw [hmod]
  constructor
  · split
    · rw [hwrap]
      exact hbound
    · rename_i hlt
      omega
  · intro hge
    rw [if_pos hge, hwrap]

/-- Witness for `c4_registered_bound` with 4 buffers of 4 bytes against
an 8-byte limit (fallback case: 2 - 1 = 1 registered buffer). -/
theorem c4_registered_bound_witness :
    ((0 : Nat) < 4 ∧ (0 : Nat) < 4 ∧ (4 : Nat) ≤ 8 ∧ 4 * 4 < U64 ∧ (8 : Nat) < U64)
    ∧ (registeredNumBuffers 4 4 8 * 4 < 8
      ∧ ((8 : Nat) ≤ 4 * 4 → registeredNumBuffers 4 4 8 = 8 / 4 - 1)) :=
  ⟨by decide,
   c4_registered_bound 4 4 8 (by decide) (by decide) (by decide) (by decide) (by decide)⟩

/-- `num_blocks` as computed at lib.rs:136 is the ceiling of
`total / bs` for a positive block size. -/
lemma numBlocksOf_eq_ceil (t bs : Nat) (hbs : 0 < bs) :
    numBlocksOf t bs = (t + bs - 1) / bs := by
  unfold numBlocksOf
  have hdm := Nat.div_add_mod t bs
  split
  · rename_i h0
    have ht : t + bs - 1 = (bs - 1) + bs * (t / bs) := by omega
    rw [ht, Nat.add_mul_div_left _ _ hbs,
      Nat.div_eq_of_lt (show bs - 1 < bs by omega)]
    omega
  · rename_i h0
    have hlt : t % bs < bs := Nat.mod_lt t hbs
    have hdist : bs * (t / bs + 1) = bs * (t / bs) + bs := by ring
    have ht : t + bs - 1 = (t % bs - 1) + bs * (t / bs + 1) := by omega
    rw [ht, Nat.add_mul_div_left _ _ hbs,
      Nat.div_eq_of_lt (show t % bs - 1 < bs by omega)]
    omega

/-- Claim C5, amended (the claim as stated is refuted by
`c5_count_overflow`): for every file length, input seek offset in bytes
not exceeding it, block size > 0 and count whose byte product fits in
u64, `total_size` equals `min(file_length - input_seek_in_bytes,
count * block_size)` when a count is given and
`file_length - input_seek_in_bytes` otherwise, and `num_blocks` is the
ceiling `(total_size + block_size - 1) / block_size` in both cases.
Both are computed once before the loop (they are pure functions of the
run's inputs). -/
theorem c5_totals (fileLen ibase c bs : Nat) (hbs : 0 < bs)
    (_hseek : ibase ≤ fileLen) (hov : c * bs < U64) :
    totalSizeOf (fileLen - ibase) (some c) bs = min (fileLen - ibase) (c * bs)
    ∧ totalSizeOf (fileLen - ibase) none bs = fileLen - ibase
    ∧ numBlocksOf (totalSizeOf (fileLen - ibase) (some c) bs) bs
      = (totalSizeOf (fileLen - ibase) (some c) bs + bs - 1) / bs
    ∧ numBlocksOf (totalSizeOf (fileLen - ibase) none bs) bs
      = (totalSizeOf (fileLen - ibase) none bs + bs - 1) / bs := by
  refine ⟨?_, rfl, numBlocksOf_eq_ceil _ _ hbs, numBlocksOf_eq_ceil _ _ hbs⟩
  simp [totalSizeOf, Nat.mod_eq_of_lt hov]

/-- Witness for `c5_totals`: a 10-byte file, 2-byte seek, count 3 of
4-byte blocks. -/
theorem c5_totals_witness :
    ((0 : Nat) < 4 ∧ (2 : Nat) ≤ 10 ∧ 3 * 4 < U64)
    ∧ (totalSizeOf (10 - 2) (some 3) 4 = min (10 - 2) (3 * 4)
      ∧ totalSizeOf (10 - 2) none 4 = 10 - 2
      ∧ numBlocksOf (totalSizeOf (10 - 2) (some 3) 4) 4
        = (totalSizeOf (10 - 2) (some 3) 4 + 4 - 1) / 4
      ∧ numBlocksOf (totalSizeOf (10 - 2) none 4) 4
        = (totalSizeOf (10 - 2) none 4 + 4 - 1) / 4) :=
  ⟨by decide, c5_totals 10 2 3 4 (by decide) (by decide) (by decide)⟩

/-- Claim C6 (confirmed): on a read completion with non-negative result
for buffer `b` whose read-phase ledger entry is `(roff, rsz)` with
`roff ≥ input_base`: a short transfer pushes the remainder
`(roff + transferred, rsz - transferred)` onto the pending-read backlog
and (like a full transfer) submits a write for exactly the transferred
count from the start of the same buffer at
`output_base + (roff - input_base)`, recording it in the write-phase
ledger entry; a transferred count strictly greater than the requested
size aborts the run (the `assert!` at lib.rs:252). -/
theorem c6_read_completion (cfg : Config) (st : EngSt) (b roff rsz : Nat)
    (res : Int) (hres : 0 ≤ res)
    (hmd : st.metadata.getD (2 * b) ⟨0, 0⟩ = ⟨roff, rsz⟩)
    (hib : cfg.ibase ≤ roff) :
    (res.toNat < rsz →
      onReadComplete cfg st b res = .ok { st with
        toReads := st.toReads ++ [(roff + res.toNat, rsz - res.toNat)]
        pending := st.pending ++ [Op.write b 0 (cfg.obase + (roff - cfg.ibase)) res.toNat]
        trace := st.trace ++ [Ev.subWrite b 0 (cfg.obase + (roff - cfg.ibase)) res.toNat]
        metadata := st.metadata.set (2 * b + 1) ⟨cfg.obase + (roff - cfg.ibase), res.toNat⟩ })
    ∧ (res.toNat = rsz →
      onReadComplete cfg st b res = .ok { st with
        pending := st.pending ++ [Op.write b 0 (cfg.obase + (roff - cfg.ibase)) res.toNat]
        trace := st.trace ++ [Ev.subWrite b 0 (cfg.obase + (roff - cfg.ibase)) res.toNat]
        metadata := st.metadata.set (2 * b + 1) ⟨cfg.obase + (roff - cfg.ibase), res.toNat⟩ })
    ∧ (rsz < res.toNat →
      onReadComplete cfg st b res = .error .assertFailed) := by
  have hnneg : ¬ res < 0 := not_lt.mpr hres
  have hwoff : cfg.obase + roff - cfg.ibase = cfg.obase + (roff - cfg.ibase) := by
    omega
  refine ⟨?_, ?_, ?_⟩ <;> intro hcmp
  · have hne : res.toNat ≠ rsz := Nat.ne_of_lt hcmp
    simp only [onReadComplete, hmd, if_neg hnneg, if_neg hne, if_pos hcmp, hwoff]
  · simp only [onReadComplete, hmd, if_neg hnneg, if_pos hcmp, hwoff]
  · have hne : res.toNat ≠ rsz := Nat.ne_of_gt hcmp
    have hnlt : ¬ res.toNat < rsz := by omega
    simp only [onReadComplete, hmd, if_neg hnneg, if_neg hne, if_neg hnlt]

/-- Witness for `c6_read_completion`: a read of `(64, 100)` on buffer 0
completing with 30 bytes, output base 7, input base 4. -/
theorem c6_read_completion_witness :
    ((0 : Int) ≤ 30
      ∧ (⟨[], [], 0, 0, [⟨64, 100⟩, ⟨0, 0⟩], 0, [], []⟩ : EngSt).metadata.getD 0 ⟨0, 0⟩
        = ⟨64, 100⟩
      ∧ (⟨4, 7, 4096, 4096, 1, 1⟩ : Config).ibase ≤ 64)
    ∧ (((30 : Int).toNat < 100 →
      onReadComplete ⟨4, 7, 4096, 4096, 1, 1⟩ ⟨[], [], 0, 0, [⟨64, 100⟩, ⟨0, 0⟩], 0, [], []⟩ 0 30
        = .ok { (⟨[], [], 0, 0, [⟨64, 100⟩, ⟨0, 0⟩], 0, [], []⟩ : EngSt) with
            toReads := [] ++ [(64 + (30 : Int).toNat, 100 - (30 : Int).toNat)]
            pending := [] ++ [Op.write 0 0 (7 + (64 - 4)) (30 : Int).toNat]
            trace := [] ++ [Ev.subWrite 0 0 (7 + (64 - 4)) (30 : Int).toNat]
            metadata := [⟨64, 100⟩, ⟨0, 0⟩].set 1 ⟨7 + (64 - 4), (30 : Int).toNat⟩ })
    ∧ ((30 : Int).toNat = 100 →
      onReadComplete ⟨4, 7, 4096, 4096, 1, 1⟩ ⟨[], [], 0, 0, [⟨64, 100⟩, ⟨0, 0⟩], 0, [], []⟩ 0 30
        = .ok { (⟨[], [], 0, 0, [⟨64, 100⟩, ⟨0, 0⟩], 0, [], []⟩ : EngSt) with
            pending := [] ++ [Op.write 0 0 (7 + (64 - 4)) (30 : Int).toNat]
            trace := [] ++ [Ev.subWrite 0 0 (7 + (64 - 4)) (30 : Int).toNat]
            metadata := [⟨64, 100⟩, ⟨0, 0⟩].set 1 ⟨7 + (64 - 4), (30 : Int).toNat⟩ })
    ∧ (100 < (30 : Int).toNat →
      onReadComplete ⟨4, 7, 4096, 4096, 1, 1⟩ ⟨[], [], 0, 0, [⟨64, 100⟩, ⟨0, 0⟩], 0, [], []⟩ 0 30
        = .error .assertFailed)) :=
  ⟨⟨by decide, by decide, by decide⟩,
   c6_read_completion ⟨4, 7, 4096, 4096, 1, 1⟩ ⟨[], [], 0, 0, [⟨64, 100⟩, ⟨0, 0⟩], 0, [], []⟩
     0 64 100 30 (by decide) (by decide) (by decide)⟩

/-- Claim C7 (confirmed): on a write completion with non-negative result
for buffer `b` whose write-phase ledger entry is `(woff, wsz)`: the
shared progress counter increases by exactly the transferred count (never
decreasing); a short transfer reissues a write for the remaining
`wsz - transferred` bytes at `woff + transferred` from the buffer
position advanced by `transferred` bytes, updates the ledger entry, and
leaves the free-buffer queue unchanged (the buffer stays out of the free
pool); a full transfer increments the completed-block count by one and
returns the buffer to the free pool.  A transferred count strictly
greater than the requested size aborts the run. -/
theorem c7_write_completion (st : EngSt) (b woff wsz : Nat) (res : Int)
    (hres : 0 ≤ res)
    (hmd : st.metadata.getD (2 * b + 1) ⟨0, 0⟩ = ⟨woff, wsz⟩) :
    (res.toNat < wsz →
      onWriteComplete st b res = .ok { st with
        statusBytes := st.statusBytes + res.toNat
        trace := st.trace ++ [Ev.wrote woff res.toNat,
          Ev.subWrite b res.toNat (woff + res.toNat) (wsz - res.toNat)]
        pending := st.pending ++ [Op.write b res.toNat (woff + res.toNat) (wsz - res.toNat)]
        metadata := st.metadata.set (2 * b + 1) ⟨woff + res.toNat, wsz - res.toNat⟩ })
    ∧ (res.toNat = wsz →
      onWriteComplete st b res = .ok { st with
        statusBytes := st.statusBytes + res.toNat
        trace := st.trace ++ [Ev.wrote woff res.toNat]
        curBlocks := st.curBlocks + 1
        freeBufs := st.freeBufs ++ [b] })
    ∧ (wsz < res.toNat →
      onWriteComplete st b res = .error .assertFailed) := by
  have hnneg : ¬ res < 0 := not_lt.mpr hres
  refine ⟨?_, ?_, ?_⟩ <;> intro hcmp
  · have hne : res.toNat ≠ wsz := Nat.ne_of_lt hcmp
    simp only [onWriteComplete, hmd, if_neg hnneg, if_neg hne, if_pos hcmp,
      List.append_assoc, List.singleton_append, List.cons_append, List.nil_append]
  · simp only [onWriteComplete, hmd, if_neg hnneg, if_pos hcmp]
  · have hne : res.toNat ≠ wsz := Nat.ne_of_gt hcmp
    have hnlt : ¬ res.toNat < wsz := by omega
    simp only [onWriteComplete, hmd, if_neg hnneg, if_neg hne, if_neg hnlt]

/-- Witness for `c7_write_completion`: a write of `(10, 50)` on buffer 0
completing with 20 bytes. -/
theorem c7_write_completion_witness :
    ((0 : Int) ≤ 20
      ∧ (⟨[], [], 0, 0, [⟨0, 0⟩, ⟨10, 50⟩], 0, [], []⟩ : EngSt).metadata.getD 1 ⟨0, 0⟩
        = ⟨10, 50⟩)
    ∧ (((20 : Int).toNat < 50 →
      onWriteComplete ⟨[], [], 0, 0, [⟨0, 0⟩, ⟨10, 50⟩], 0, [], []⟩ 0 20
        = .ok { (⟨[], [], 0, 0, [⟨0, 0⟩, ⟨10, 50⟩], 0, [], []⟩ : EngSt) with
            statusBytes := 0 + (20 : Int).toNat
            trace := [] ++ [Ev.wrote 10 (20 : Int).toNat,
              Ev.subWrite 0 (20 : Int).toNat (10 + (20 : Int).toNat) (50 - (20 : Int).toNat)]
            pending := [] ++ [Op.write 0 (20 : Int).toNat (10 + (20 : Int).toNat) (50 - (20 : Int).toNat)]
            metadata := [⟨0, 0⟩, ⟨10, 50⟩].set 1 ⟨10 + (20 : Int).toNat, 50 - (20 : Int).toNat⟩ })
    ∧ ((20 : Int).toNat = 50 →
      onWriteComplete ⟨[], [], 0, 0, [⟨0, 0⟩, ⟨10, 50⟩], 0, [], []⟩ 0 20
        = .ok { (⟨[], [], 0, 0, [⟨0, 0⟩, ⟨10, 50⟩], 0, [], []⟩ : EngSt) with
            statusBytes := 0 + (20 : Int).toNat
            trace := [] ++ [Ev.wrote 10 (20 : Int).toNat]
            curBlocks := 0 + 1
            freeBufs := [] ++ [0] })
    ∧ (50 < (20 : Int).toNat →
      onWriteComplete ⟨[], [], 0, 0, [⟨0, 0⟩, ⟨10, 50⟩], 0, [], []⟩ 0 20
        = .error .assertFailed)) :=
  ⟨⟨by decide, by decide⟩,
   c7_write_completion ⟨[], [], 0, 0, [⟨0, 0⟩, ⟨10, 50⟩], 0, [], []⟩ 0 10 50 20
     (by decide) (by decide)⟩

end Fastdd
